import Mathlib

/-!
Verification of the ETF dashboard's data acquisition and decision engine.

This file gives a shallow embedding, in Lean 4, of the core components of
the `etf_dashboard` Python package — the technical-indicator calculator
(`indicators/calculator.py`), the signal evaluator (`signals/manager.py`),
the data validator (`data/validator.py`), the portfolio manager
(`portfolio/manager.py`), the cache store (`data/cache.py`) and the
multi-source loader (`data/multi_source_loader.py`) — and proves or refutes
the spec's testable properties over that embedding.

Modelling conventions:
- Python floats are modelled as `ℚ` (exact arithmetic).  Where the source's
  IEEE semantics is load-bearing (division by zero producing `inf`/`NaN`,
  `fillna`), the definition spells out the case split and the doc comment
  records which IEEE behaviour each branch translates.
- pandas `Series`/`DataFrame` values are modelled as `List`s of rows;
  a missing value (`NaN`/`NaT`) is `Option.none`.
- Python `dict`s are modelled as insertion-ordered association lists; a
  lookup is `List.lookup`, matching dict access for duplicate-free keys.
- A Python function that can `raise` is modelled with `Except String`;
  a method that mutates `self` returns the new state explicitly, and a
  method that validates before mutating returns the unchanged state on the
  error path exactly when the source raises before its first assignment.
-/

namespace EtfDashboard

/-! ### Indicator engine — `indicators/calculator.py` -/

/-- Trailing-window mean of the `period` entries of `xs` ending at index
`i`, i.e. pandas `rolling(window=period, min_periods=period).mean()` at an
index where the window is complete. -/
def rollingMean (xs : List ℚ) (period : ℕ) (i : ℕ) : ℚ :=
  (((xs.take (i + 1)).drop (i + 1 - period)).sum) / (period : ℚ)

/-- Upward price changes: `delta = prices.diff(); gain = delta.where(delta > 0, 0)`.
The first delta is `NaN` in pandas; `NaN > 0` is false, so the first gain is
`0`. -/
def gains (prices : List ℚ) : List ℚ :=
  0 :: (prices.zip prices.tail).map (fun p => if p.2 - p.1 > 0 then p.2 - p.1 else 0)

/-- Magnitudes of downward price changes: `loss = -delta.where(delta < 0, 0)`,
with the leading `NaN` delta likewise becoming `0`. -/
def losses (prices : List ℚ) : List ℚ :=
  0 :: (prices.zip prices.tail).map (fun p => if p.2 - p.1 < 0 then p.1 - p.2 else 0)

/-- RSI value from one window's average gain and average loss, translating
`rs = avg_gain / avg_loss; rsi = 100 - (100 / (1 + rs))` followed by
`rsi.fillna(50)` under the source's IEEE float semantics on nonnegative
inputs: `avg_loss = 0` with `avg_gain > 0` gives `rs = +inf`, hence
`rsi = 100 - 0 = 100` (not `NaN`, so `fillna` leaves it); `avg_gain =
avg_loss = 0` gives `rs = NaN`, hence `rsi = NaN`, filled to `50`. -/
def rsiPoint (avgGain avgLoss : ℚ) : ℚ :=
  if avgLoss = 0 then (if avgGain = 0 then 50 else 100)
  else 100 - 100 / (1 + avgGain / avgLoss)

/-- Translation of `TechnicalIndicators.calculate_rsi`.  When the series is
shorter than `period + 1` the source returns an all-`NaN` series (`none`
entries).  Otherwise indices whose rolling window is incomplete are `NaN`
before `fillna(50)` and therefore `50` after it; complete windows get
`rsiPoint` of the window's average gain and loss. -/
def calculateRsi (prices : List ℚ) (period : ℕ := 14) : List (Option ℚ) :=
  if prices.length < period + 1 then prices.map (fun _ => none)
  else (List.range prices.length).map (fun i =>
    if i + 1 < period then some 50
    else some (rsiPoint (rollingMean (gains prices) period i)
                        (rollingMean (losses prices) period i)))

/-- Running peak `prices.expanding().max()` at index `i`: the maximum of the
first `i + 1` prices. -/
def prefixMax (prices : List ℚ) (i : ℕ) : ℚ :=
  (prices.take (i + 1)).foldl max (prices.headD 0)

/-- Per-index drawdown `(peak - prices) / peak` of
`TechnicalIndicators.calculate_max_drawdown`. -/
def drawdowns (prices : List ℚ) : List ℚ :=
  (List.range prices.length).map (fun i =>
    (prefixMax prices i - prices.getD i 0) / prefixMax prices i)

/-- Translation of `TechnicalIndicators.calculate_max_drawdown`.  An empty
series raises `ValueError`; otherwise the result is `drawdown.max()`.  On a
series of positive prices no entry is `NaN`, so the source's trailing
`if pd.isna(max_drawdown): max_drawdown = 0.0` branch is not taken and the
maximum is the fold of `max` over the drawdown series. -/
def calculateMaxDrawdown (prices : List ℚ) : Except String ℚ :=
  if prices.isEmpty then Except.error "价格序列不能为空"
  else Except.ok ((drawdowns prices).foldl max ((drawdowns prices).headD 0))

/-! ### Signal evaluator — `signals/manager.py` -/

/-- Trend status strings `"上升"` (rising), `"下降"` (falling), `"震荡"`
(ranging) of `TechnicalData.trend_status`. -/
inductive TrendStatus
  | rising
  | falling
  | ranging
deriving DecidableEq

/-- RSI status strings `"超买"`, `"超卖"`, `"正常"` of `RSICondition.status`. -/
inductive RsiStatus
  | overbought
  | oversold
  | normal
deriving DecidableEq

/-- Model of the dataclass `TrendCondition`. -/
structure TrendCondition where
  status : TrendStatus
  maAlignment : Bool
  strength : ℚ
deriving DecidableEq

/-- Model of the dataclass `RSICondition`. -/
structure RSICondition where
  value : ℚ
  status : RsiStatus
  isOverbought : Bool
  isOversold : Bool
deriving DecidableEq

/-- Model of the dataclass `DrawdownCondition`. -/
structure DrawdownCondition where
  value : ℚ
  isExcessive : Bool
  threshold : ℚ
deriving DecidableEq

/-- Model of `SignalManager.config`. -/
structure SignalConfig where
  rsiOverboughtThreshold : ℚ
  rsiOversoldThreshold : ℚ
  rsiNeutralThreshold : ℚ
  maxDrawdownThreshold : ℚ
  trendStrengthThreshold : ℚ
deriving DecidableEq

/-- Default `SignalManager.config` values (`0.20` is `1/5`, `0.6` is `3/5`). -/
def defaultSignalConfig : SignalConfig :=
  { rsiOverboughtThreshold := 70
    rsiOversoldThreshold := 30
    rsiNeutralThreshold := 50
    maxDrawdownThreshold := 1/5
    trendStrengthThreshold := 3/5 }

/-- Reason strings appended by `_evaluate_buy_conditions`, modelled as
tagged values carrying the numbers interpolated into each format string. -/
inductive Reason
  | drawdownExceeded (value threshold : ℚ)
  | drawdownAcceptable (value : ℚ)
  | risingRsiOk (rsi : ℚ)
  | risingOverbought (rsi : ℚ)
  | rangingRsiOk (rsi : ℚ)
  | rangingRsiHigh (rsi : ℚ)
  | fallingTrend
deriving DecidableEq

/-- Translation of `SignalManager.evaluate_drawdown_condition`:
`is_excessive = max_drawdown > threshold` with the configured threshold. -/
def evaluateDrawdownCondition (cfg : SignalConfig) (maxDrawdown : ℚ) : DrawdownCondition :=
  { value := maxDrawdown
    isExcessive := decide (maxDrawdown > cfg.maxDrawdownThreshold)
    threshold := cfg.maxDrawdownThreshold }

/-- Clamp to `[0, 1]`: `max(0.0, min(1.0, confidence))`. -/
def clamp01 (x : ℚ) : ℚ := max 0 (min 1 x)

/-- Translation of `SignalManager._evaluate_buy_conditions`, returning
`(is_allowed, confidence, reasons)`.  Rule 1 (the drawdown gate) returns
immediately on breach.  Rule 2 branches on the trend status; confidence
starts at `1.0`, is multiplied by `0.9` (rising) or `0.7` (ranging) on an
allow, set to `0.2`/`0.3`/`0.1` on the respective denials, then on allowed
signals scaled by `0.5 + 0.5 * strength`, and finally clamped to `[0,1]`. -/
def evaluateBuyConditions (cfg : SignalConfig) (trend : TrendCondition)
    (rsi : RSICondition) (dd : DrawdownCondition) : Bool × ℚ × List Reason :=
  if dd.isExcessive then
    (false, 0, [Reason.drawdownExceeded dd.value dd.threshold])
  else
    let reasons : List Reason := [Reason.drawdownAcceptable dd.value]
    let step : Bool × ℚ × List Reason :=
      match trend.status with
      | TrendStatus.rising =>
        if rsi.value < cfg.rsiOverboughtThreshold then
          (true, 1 * (9/10 : ℚ), reasons ++ [Reason.risingRsiOk rsi.value])
        else
          (false, (2/10 : ℚ), reasons ++ [Reason.risingOverbought rsi.value])
      | TrendStatus.ranging =>
        if rsi.value < cfg.rsiNeutralThreshold then
          (true, 1 * (7/10 : ℚ), reasons ++ [Reason.rangingRsiOk rsi.value])
        else
          (false, (3/10 : ℚ), reasons ++ [Reason.rangingRsiHigh rsi.value])
      | TrendStatus.falling =>
        (false, (1/10 : ℚ), reasons ++ [Reason.fallingTrend])
    let conf := if step.1 then step.2.1 * (1/2 + 1/2 * trend.strength) else step.2.1
    (step.1, clamp01 conf, step.2.2)

/-! ### Data validator — `data/validator.py`

A raw frame is a list of rows already carrying the canonical column names
(stage 1, `_standardize_columns`, renames source columns; stage 2 rejects a
frame missing a required column — a frame of `RawRow`s has all six by
construction).  Stage 3 (`_convert_data_types`, `pd.to_datetime` /
`pd.to_numeric` with `errors='coerce'`) turns unparsable cells into
missing values, which the `Option` fields represent directly. -/

/-- Raw row after column standardization and numeric coercion; `none` is a
`NaN`/`NaT` cell.  Dates are modelled as integers (ordinal days); `open` is
a Lean keyword, hence the `open_` field name. -/
structure RawRow where
  date : Option ℤ
  open_ : Option ℚ
  high : Option ℚ
  low : Option ℚ
  close : Option ℚ
  volume : Option ℚ
deriving DecidableEq

/-- Row after `_convert_data_types`, which runs
`volume.fillna(0).astype('int64')`: the volume becomes an integer. -/
structure ConvRow where
  date : Option ℤ
  open_ : Option ℚ
  high : Option ℚ
  low : Option ℚ
  close : Option ℚ
  volume : ℤ
deriving DecidableEq

/-- Fully populated row as returned by the validator. -/
structure PriceRow where
  date : ℤ
  open_ : ℚ
  high : ℚ
  low : ℚ
  close : ℚ
  volume : ℤ
deriving DecidableEq

/-- numpy `astype('int64')` truncation toward zero. -/
def truncToInt (q : ℚ) : ℤ := if 0 ≤ q then ⌊q⌋ else -⌊-q⌋

/-- Translation of `_convert_data_types` on one row (the numeric coercion
itself is the `Option` representation; the volume is filled with `0` and
truncated to an integer). -/
def convertRow (r : RawRow) : ConvRow :=
  { date := r.date, open_ := r.open_, high := r.high, low := r.low, close := r.close,
    volume := truncToInt (r.volume.getD 0) }

/-- pandas `Series.ffill` on one column selected by `get`/`set`, carrying
the last non-missing value downward. -/
def ffillStep (get : ConvRow → Option ℚ) (set : ConvRow → Option ℚ → ConvRow) :
    List ConvRow → Option ℚ → List ConvRow
  | [], _ => []
  | r :: rest, last =>
    let v := match get r with
      | some x => some x
      | none => last
    set r v :: ffillStep get set rest v

/-- Translation of `_handle_missing_values`: rows with a missing date are
dropped first (`date` heads the critical-column list), then each price
column is forward-filled, then rows still missing a critical field are
dropped; an empty remainder fails.  The source runs each per-column
operation only when the column has missing cells, which is equivalent to
running it unconditionally. -/
def handleMissingValues (rows : List ConvRow) : Option (List ConvRow) :=
  let r1 := rows.filter (fun r => r.date.isSome)
  let r2 := ffillStep (fun r => r.close) (fun r v => { r with close := v })
    (ffillStep (fun r => r.low) (fun r v => { r with low := v })
      (ffillStep (fun r => r.high) (fun r v => { r with high := v })
        (ffillStep (fun r => r.open_) (fun r v => { r with open_ := v }) r1 none)
        none)
      none)
    none
  let r3 := r2.filter (fun r =>
    r.date.isSome && r.open_.isSome && r.high.isSome && r.low.isSome && r.close.isSome)
  if r3.isEmpty then none else some r3

/-- Extraction of the populated fields after `_handle_missing_values` kept
only rows whose critical fields are all present. -/
def toPriceRow (r : ConvRow) : PriceRow :=
  { date := r.date.getD 0, open_ := r.open_.getD 0, high := r.high.getD 0,
    low := r.low.getD 0, close := r.close.getD 0, volume := r.volume }

/-- Rows that survive the missing-value stage, as fully populated rows. -/
def cleanedRows (rows : List ConvRow) : Option (List PriceRow) :=
  match handleMissingValues rows with
  | none => none
  | some r => some (r.map toPriceRow)

/-- OHLCV integrity invariant of one row, the negation of the row checks of
`_validate_data_integrity`: `low ≤ high`, `low ≤ {open, close} ≤ high`,
positive prices, nonnegative volume. -/
def rowValid (r : PriceRow) : Prop :=
  r.low ≤ r.high ∧ r.low ≤ r.open_ ∧ r.open_ ≤ r.high ∧ r.low ≤ r.close ∧ r.close ≤ r.high ∧
  0 < r.open_ ∧ 0 < r.high ∧ 0 < r.low ∧ 0 < r.close ∧ 0 ≤ r.volume

instance : DecidablePred rowValid := fun r => by unfold rowValid; infer_instance

/-- Count of rows failing the integrity invariant (`invalid_price_rows`). -/
def countInvalid (rows : List PriceRow) : ℕ :=
  rows.countP (fun r => !(decide (rowValid r)))

/-- Translation of the acceptance condition of `_validate_data_integrity`:
zero invalid rows, or an error rate of at most 10%. -/
def integrityOk (rows : List PriceRow) : Prop :=
  countInvalid rows = 0 ∨ (countInvalid rows : ℚ) / (rows.length : ℚ) ≤ 1/10

instance : DecidablePred integrityOk := fun rows => by unfold integrityOk; infer_instance

/-- Round-half-to-even to an integer, the rounding numpy/pandas `round`
applies (modelled exactly on ℚ, the usual idealization of the binary-float
behaviour). -/
def roundHalfEven (q : ℚ) : ℤ :=
  let f := ⌊q⌋
  let r := q - f
  if r < 1/2 then f
  else if 1/2 < r then f + 1
  else if 2 ∣ f then f else f + 1

/-- Rounding to `p` decimal places (`Series.round(p)`). -/
def roundPrec (q : ℚ) (p : ℕ) : ℚ := (roundHalfEven (q * 10 ^ p) : ℚ) / (10 : ℚ) ^ p

/-- Translation of `format_price_precision` on one row: prices rounded to
`p` decimals; `volume.round(0).astype('int64')` is the identity on an
integer volume. -/
def roundRow (p : ℕ) (r : PriceRow) : PriceRow :=
  { r with open_ := roundPrec r.open_ p, high := roundPrec r.high p,
           low := roundPrec r.low p, close := roundPrec r.close p }

/-- Date order used by `sort_index()` after `_set_date_index`. -/
def dateLE (a b : PriceRow) : Prop := a.date ≤ b.date

instance : DecidableRel dateLE := fun a b => by unfold dateLE; infer_instance

instance : IsTotal PriceRow dateLE := ⟨fun a b => le_total a.date b.date⟩

instance : IsTrans PriceRow dateLE := ⟨fun _ _ _ h1 h2 => le_trans h1 h2⟩

/-- Translation of `validate_data_completeness` on a cleaned frame: empty
or shorter than `min_records` fails.  The per-column missing-rate loop
always passes here (the cleaned rows have no missing cells), and the
date-gap check only logs a warning. -/
def validateDataCompleteness (rows : List PriceRow) (minRecords : ℕ := 30) : Bool :=
  if rows.isEmpty then false
  else if rows.length < minRecords then false
  else true

/-- Translation of `validate_price_data` (with the default
`enable_outlier_detection=False`): empty input fails; the cleaned rows must
pass the integrity check; the result is the cleaned rows sorted by date and
rounded to the price precision.  `normalize_datetime_format` is the
identity here, and a failing `validate_data_completeness` only logs
`"数据完整性验证未通过，但仍返回数据"` — the data is returned regardless. -/
def validatePriceData (raws : List RawRow) (pricePrecision : ℕ := 2) :
    Option (List PriceRow) :=
  if raws.isEmpty then none
  else
    match cleanedRows (raws.map convertRow) with
    | none => none
    | some rows =>
      if integrityOk rows then
        some ((List.insertionSort dateLE rows).map (roundRow pricePrecision))
      else none

/-! ### Portfolio engine — `portfolio/manager.py`

`PortfolioManager` state: the in-memory config, the transient holdings
map, and the persisted `portfolio_config.json` contents.  Python dicts are
insertion-ordered association lists here. -/

/-- Model of the dataclass `PortfolioConfig` (the `created_at` timestamp is
irrelevant to the verified properties). -/
structure PortfolioConfigM where
  etfWeights : List (String × ℚ)
  rebalanceThreshold : ℚ
deriving DecidableEq

/-- Mutable state of a `PortfolioManager`. -/
structure PMState where
  portfolioConfig : Option PortfolioConfigM
  currentHoldings : List (String × ℚ)
  savedConfig : Option PortfolioConfigM
deriving DecidableEq

/-- Translation of `update_target_weights`.  The sum and per-weight range
checks run before any assignment; a `raise` there leaves the state — the
in-memory config, the holdings and the persisted file — untouched, which
the error branch expresses by returning `st` unchanged. -/
def updateTargetWeights (st : PMState) (weights : List (String × ℚ)) :
    PMState × Except String Unit :=
  let total := (weights.map Prod.snd).sum
  if |total - 1| > 1/1000 then
    (st, Except.error "权重总和必须为1.0")
  else if weights.any (fun p => decide (p.2 < 0) || decide (1 < p.2)) then
    (st, Except.error "权重必须在0到1之间")
  else
    match st.portfolioConfig with
    | none =>
      let cfg : PortfolioConfigM := { etfWeights := weights, rebalanceThreshold := 1/20 }
      ({ st with portfolioConfig := some cfg, savedConfig := some cfg }, Except.ok ())
    | some cfg0 =>
      let cfg := { cfg0 with etfWeights := weights }
      if |(cfg.etfWeights.map Prod.snd).sum - 1| > 1/1000 then
        ({ st with portfolioConfig := some cfg }, Except.error "权重总和必须为1.0")
      else
        ({ st with portfolioConfig := some cfg, savedConfig := some cfg }, Except.ok ())

/-- Translation of `update_current_holdings`: every quantity is validated
nonnegative before the single assignment `self.current_holdings =
holdings.copy()`; a negative quantity raises with the state untouched. -/
def updateCurrentHoldings (st : PMState) (holdings : List (String × ℚ)) :
    PMState × Except String Unit :=
  if holdings.any (fun p => decide (p.2 < 0)) then
    (st, Except.error "持仓数量不能为负数")
  else
    ({ st with currentHoldings := holdings }, Except.ok ())

/-- Translation of `calculate_portfolio_value`: sum of quantity × price
over holdings, skipping symbols without a price. -/
def calculatePortfolioValue (holdings prices : List (String × ℚ)) : ℚ :=
  holdings.foldl (fun acc p =>
    match prices.lookup p.1 with
    | some price => acc + p.2 * price
    | none => acc) 0

/-- Current weight of one symbol as `_calculate_current_weights` computes
it: `0` when the total value is `0`, otherwise quantity × price / total
with missing holdings and prices defaulting to `0`. -/
def currentWeightOf (holdings prices : List (String × ℚ)) (total : ℚ)
    (symbol : String) : ℚ :=
  if total = 0 then 0
  else (holdings.lookup symbol).getD 0 * (prices.lookup symbol).getD 0 / total

/-- Translation of `_calculate_current_weights`: one weight per configured
symbol. -/
def calculateCurrentWeights (cfg : PortfolioConfigM)
    (holdings prices : List (String × ℚ)) : List (String × ℚ) :=
  let total := calculatePortfolioValue holdings prices
  cfg.etfWeights.map (fun p => (p.1, currentWeightOf holdings prices total p.1))

/-- Action strings `"买入"` (buy), `"卖出"` (sell), `"持有"` (hold). -/
inductive TradeAction
  | buy
  | sell
  | hold
deriving DecidableEq

/-- Model of the dataclass `RebalanceAction`. -/
structure RebalanceActionM where
  symbol : String
  action : TradeAction
  currentWeight : ℚ
  targetWeight : ℚ
  deviation : ℚ
  suggestedAmount : ℚ
deriving DecidableEq

/-- Constructor of `RebalanceAction` with its `__post_init__` validation:
the action is always one of the three valid strings, and both weights must
lie in `[0, 1]` or the constructor raises. -/
def mkRebalanceAction (symbol : String) (action : TradeAction)
    (currentWeight targetWeight deviation suggestedAmount : ℚ) :
    Except String RebalanceActionM :=
  if ¬ (0 ≤ currentWeight ∧ currentWeight ≤ 1) then
    Except.error "当前权重必须在0到1之间"
  else if ¬ (0 ≤ targetWeight ∧ targetWeight ≤ 1) then
    Except.error "目标权重必须在0到1之间"
  else
    Except.ok ⟨symbol, action, currentWeight, targetWeight, deviation, suggestedAmount⟩

/-- Descending-deviation order used by
`suggestions.sort(key=lambda x: x.deviation, reverse=True)`. -/
def devGE (a b : RebalanceActionM) : Prop := b.deviation ≤ a.deviation

instance : DecidableRel devGE := fun a b => by unfold devGE; infer_instance

instance : IsTotal RebalanceActionM devGE := ⟨fun a b => le_total b.deviation a.deviation⟩

instance : IsTrans RebalanceActionM devGE := ⟨fun _ _ _ h1 h2 => le_trans h2 h1⟩

/-- Translation of `get_rebalance_suggestions`.  A missing config raises,
and the surrounding `except` handler returns `[]`; likewise a
`RebalanceAction` whose `__post_init__` raises aborts the whole call to
`[]`.  The deviation for a symbol is `|current - target|`, recomputed from
the same inputs `calculate_portfolio_deviation` uses, so reading the
`deviations` dict is the same as computing it inline.  The built list is
sorted by deviation descending (Python's sort is stable; `insertionSort`
is a stable sort as well). -/
def buildSuggestion (holdings prices : List (String × ℚ)) (total threshold : ℚ)
    (p : String × ℚ) : Except String RebalanceActionM :=
  let current := currentWeightOf holdings prices total p.1
  let deviation := |current - p.2|
  if deviation > threshold then
    if current > p.2 then
      mkRebalanceAction p.1 TradeAction.sell current p.2 deviation
        ((current - p.2) * total)
    else
      mkRebalanceAction p.1 TradeAction.buy current p.2 deviation
        ((p.2 - current) * total)
  else
    mkRebalanceAction p.1 TradeAction.hold current p.2 deviation 0

def getRebalanceSuggestions (st : PMState) (prices : List (String × ℚ))
    (thresholdArg : Option ℚ) : List RebalanceActionM :=
  match st.portfolioConfig with
  | none => []
  | some cfg =>
    let threshold := thresholdArg.getD cfg.rebalanceThreshold
    let total := calculatePortfolioValue st.currentHoldings prices
    let build : Except String (List RebalanceActionM) :=
      cfg.etfWeights.mapM (buildSuggestion st.currentHoldings prices total threshold)
    match build with
    | Except.error _ => []
    | Except.ok l => List.insertionSort devGE l

/-- Statement-side description of one rebalance action, written from the
claim's words (deviation over threshold → Sell when over target else Buy,
with amount `|Δweight| × portfolioValue`; otherwise Hold with amount 0;
current weight `symbolValue / portfolioValue`, `0` when the portfolio
value is `0`), to be compared with `getRebalanceSuggestions`. -/
def claimAction (holdings prices : List (String × ℚ))
    (portfolioValue threshold : ℚ) (p : String × ℚ) : RebalanceActionM :=
  let current := if portfolioValue = 0 then 0
    else (holdings.lookup p.1).getD 0 * (prices.lookup p.1).getD 0 / portfolioValue
  let deviation := |current - p.2|
  if deviation > threshold then
    { symbol := p.1
      action := if current > p.2 then TradeAction.sell else TradeAction.buy
      currentWeight := current
      targetWeight := p.2
      deviation := deviation
      suggestedAmount := deviation * portfolioValue }
  else
    { symbol := p.1
      action := TradeAction.hold
      currentWeight := current
      targetWeight := p.2
      deviation := deviation
      suggestedAmount := 0 }

/-! ### Cache store — `data/cache.py`

The cache directory is a finite map from symbol (cache key) to a pickled
entry `{data, timestamp}`; `cache_expiry_hours` is the TTL. -/

/-- Model of one pickled cache file. -/
structure CacheEntry (α : Type) where
  data : α
  timestamp : ℚ

/-- Model of a `DataCache`: its directory contents plus the configured
TTL in hours. -/
structure CacheState (α : Type) where
  entries : List (String × CacheEntry α)
  cacheExpiryHours : ℚ

/-- Translation of `_is_cache_expired`:
`datetime.now() > timestamp + timedelta(hours=cache_expiry_hours)`. -/
def isCacheExpired (st : CacheState α) (timestamp now : ℚ) : Prop :=
  now > timestamp + st.cacheExpiryHours

instance (st : CacheState α) : Decidable (isCacheExpired st ts now) := by
  unfold isCacheExpired; infer_instance

/-- Translation of `_remove_cache_file` for a symbol's cache file. -/
def removeCacheFile (st : CacheState α) (symbol : String) : CacheState α :=
  { st with entries := st.entries.filter (fun p => !(p.1 == symbol)) }

/-- Translation of `DataCache.load` at time `now`: a missing file is a
miss; an expired entry is removed and is a miss; otherwise the stored
payload is returned and the store is untouched. -/
def cacheLoad (st : CacheState α) (symbol : String) (now : ℚ) :
    Option α × CacheState α :=
  match st.entries.lookup symbol with
  | none => (none, st)
  | some e =>
    if isCacheExpired st e.timestamp now then (none, removeCacheFile st symbol)
    else (some e.data, st)

/-! ### Multi-source loader — `data/multi_source_loader.py`

An adapter call either returns a frame (possibly `None` or empty), or
raises; the scripted `attempts` list is the sequence of outcomes the
adapter would produce on successive calls.  An adapter that raises
internally records the message in its own `last_error` before returning
`None`, and the loader's `except` branch records it as well, so both raise
paths set `last_error`; returning `None`/empty data or data that fails
validation records nothing. -/

/-- Outcome of one `source.get_etf_data` call. -/
inductive FetchOutcome
  | raw (frame : Option (List RawRow))
  | exc (msg : String)
deriving DecidableEq

/-- Model of a `DataSourceInterface` subclass instance. -/
structure DataSource where
  name : String
  isAvailable : Bool
  lastError : Option String
  attempts : List FetchOutcome
deriving DecidableEq

/-- Python truthiness of `source.last_error` (a `None` or empty string is
falsy). -/
def lastErrorTruthy : Option String → Bool
  | none => false
  | some s => !(s == "")

/-- Retry loop body of `get_etf_data` for one source: up to `retries`
attempts; a non-`None`, nonempty frame that passes validation returns the
validated data; an exception records `last_error`; otherwise retry. -/
def attemptLoop : ℕ → List FetchOutcome → Option String →
    Option String × Option (List PriceRow)
  | 0, _, le => (le, none)
  | _ + 1, [], le => (le, none)
  | n + 1, o :: rest, le =>
    match o with
    | FetchOutcome.exc m => attemptLoop n rest (some m)
    | FetchOutcome.raw none => attemptLoop n rest le
    | FetchOutcome.raw (some f) =>
      if f.isEmpty then attemptLoop n rest le
      else
        match validatePriceData f with
        | some v => (le, some v)
        | none => attemptLoop n rest le

/-- One source's turn in the failover loop: run the retry loop; on
success return the validated data (the loader also writes it to the
cache); on exhausted retries mark the source unavailable exactly when
`if source.last_error:` is truthy. -/
def runSource (retries : ℕ) (src : DataSource) :
    DataSource × Option (List PriceRow) :=
  let r := attemptLoop retries src.attempts src.lastError
  match r.2 with
  | some v => ({ src with lastError := r.1 }, some v)
  | none =>
    ({ src with
        lastError := r.1
        isAvailable := if lastErrorTruthy r.1 then false else src.isAvailable }, none)

/-- Failover over the source list of `get_etf_data`: skip unavailable
sources, return the first validated result, and thread each source's
updated health state. -/
def getEtfDataLoop (retries : ℕ) :
    List DataSource → List DataSource × Option (List PriceRow)
  | [] => ([], none)
  | src :: rest =>
    if src.isAvailable then
      match runSource retries src with
      | (src2, some v) => (src2 :: rest, some v)
      | (src2, none) =>
        let r := getEtfDataLoop retries rest
        (src2 :: r.1, r.2)
    else
      let r := getEtfDataLoop retries rest
      (src :: r.1, r.2)

/-- Translation of `MultiSourceDataLoader.get_etf_data`: a valid cache hit
returns the cached frame; otherwise the failover loop runs.  `cacheValid`
is the result of `_is_cache_valid` (a date-coverage check on the cached
frame). -/
def getEtfData (retries : ℕ) (cached : Option (List PriceRow))
    (cacheValid : Bool) (sources : List DataSource) :
    List DataSource × Option (List PriceRow) :=
  match cached with
  | some d => if cacheValid then (sources, some d) else getEtfDataLoop retries sources
  | none => getEtfDataLoop retries sources

/-! ### Concrete frames used by the counterexamples and witnesses -/

/-- Valid raw row fixture with all prices 1 and volume 0. -/
def demoRaw (i : ℤ) : RawRow := ⟨some i, some 1, some 1, some 1, some 1, some 0⟩

/-- Raw row fixture violating the integrity invariant (open 2 above high 1). -/
def demoBadRaw (i : ℤ) : RawRow := ⟨some i, some 2, some 1, some 1, some 1, some 0⟩

/-- Validated form of `demoRaw`. -/
def demoRow (i : ℤ) : PriceRow := ⟨i, 1, 1, 1, 1, 0⟩

/-- Validated form of `demoBadRaw`; still violates the invariant. -/
def demoBadRow (i : ℤ) : PriceRow := ⟨i, 2, 1, 1, 1, 0⟩

/-- Five valid raw rows. -/
def demoFrame5 : List RawRow := [demoRaw 0, demoRaw 1, demoRaw 2, demoRaw 3, demoRaw 4]

/-- Validated series of `demoFrame5`. -/
def demoSeries5 : List PriceRow := [demoRow 0, demoRow 1, demoRow 2, demoRow 3, demoRow 4]

/-- Bridging form of one holding's contribution to `calculatePortfolioValue`. -/
def contrib (prices : List (String × ℚ)) (p : String × ℚ) : ℚ :=
  match prices.lookup p.1 with
  | some price => p.2 * price
  | none => 0

/-! ### Helper lemmas -/

theorem le_foldl_max (l : List ℚ) (a : ℚ) : a ≤ l.foldl max a := by
  induction l generalizing a with
  | nil => simp
  | cons x xs ih => exact le_trans (le_max_left a x) (ih (max a x))

theorem foldl_max_le {l : List ℚ} {a b : ℚ} (ha : a ≤ b) (hl : ∀ x ∈ l, x ≤ b) :
    l.foldl max a ≤ b := by
  induction l generalizing a with
  | nil => simpa using ha
  | cons x xs ih =>
    exact ih (max_le ha (hl x (List.mem_cons_self x xs)))
      (fun y hy => hl y (List.mem_cons_of_mem x hy))

theorem le_foldl_max_of_mem {l : List ℚ} {a x : ℚ} (hx : x ∈ l) : x ≤ l.foldl max a := by
  induction l generalizing a with
  | nil => cases hx
  | cons y ys ih =>
    rcases List.mem_cons.mp hx with rfl | hx2
    · exact le_trans (le_max_right a x) (le_foldl_max ys (max a x))
    · exact ih hx2

theorem getD_mem_take (l : List ℚ) (i : ℕ) (hi : i < l.length) :
    l.getD i 0 ∈ l.take (i + 1) := by
  rw [List.getD_eq_getElem l 0 hi, List.take_succ]
  exact List.mem_append.mpr (Or.inr (by simp [List.getElem?_eq_getElem hi]))

theorem getD_le_prefixMax (l : List ℚ) (i : ℕ) (hi : i < l.length) :
    l.getD i 0 ≤ prefixMax l i :=
  le_foldl_max_of_mem (getD_mem_take l i hi)

theorem prefixMax_pos {l : List ℚ} (hpos : ∀ p ∈ l, 0 < p) (hne : l ≠ []) (i : ℕ) :
    0 < prefixMax l i := by
  obtain ⟨p, rest, rfl⟩ := List.exists_cons_of_ne_nil hne
  have hp : (0:ℚ) < p := hpos p (List.mem_cons_self p rest)
  exact lt_of_lt_of_le (by simpa using hp) (le_foldl_max _ _)

theorem take_le_getD_of_sorted {l : List ℚ} (hs : l.Sorted (· ≤ ·)) {i : ℕ}
    (hi : i < l.length) : ∀ x ∈ l.take (i + 1), x ≤ l.getD i 0 := by
  intro x hx
  rw [List.getD_eq_getElem l 0 hi]
  rw [List.take_succ, List.getElem?_eq_getElem hi] at hx
  rcases List.mem_append.mp hx with hx1 | hx2
  · have hmem : l[i] ∈ l.drop i := by
      rw [List.drop_eq_getElem_cons hi]
      exact List.mem_cons_self _ _
    exact hs.rel_of_mem_take_of_mem_drop hx1 hmem
  · simp at hx2
    exact le_of_eq hx2

theorem prefixMax_eq_of_sorted {l : List ℚ} (hs : l.Sorted (· ≤ ·)) {i : ℕ}
    (hi : i < l.length) : prefixMax l i = l.getD i 0 := by
  refine le_antisymm ?_ (getD_le_prefixMax l i hi)
  refine foldl_max_le ?_ (take_le_getD_of_sorted hs hi)
  rcases l with _ | ⟨p, rest⟩
  · cases hi
  · simpa using take_le_getD_of_sorted hs hi p (by simp [List.take_succ_cons])

theorem drawdowns_headD (p : ℚ) (rest : List ℚ) :
    (drawdowns (p :: rest)).headD 0 = 0 := by
  simp [drawdowns, List.range_succ_eq_map, prefixMax]

theorem handleMissingValues_ne_nil {conv : List ConvRow} {r : List ConvRow}
    (h : handleMissingValues conv = some r) : r ≠ [] := by
  simp only [handleMissingValues] at h
  split at h
  · cases h
  · next hne =>
    rcases Option.some.inj h with rfl
    intro hnil
    exact hne (by simp [hnil])

theorem cleanedRows_ne_nil {conv : List ConvRow} {rows : List PriceRow}
    (h : cleanedRows conv = some rows) : rows ≠ [] := by
  unfold cleanedRows at h
  cases hm : handleMissingValues conv with
  | none => rw [hm] at h; cases h
  | some r =>
    rw [hm] at h
    dsimp only at h
    rcases Option.some.inj h with rfl
    intro hnil
    exact handleMissingValues_ne_nil hm (List.map_eq_nil_iff.mp hnil)

theorem lookup_mem {β : Type} {l : List (String × β)} {k : String} {v : β}
    (h : l.lookup k = some v) : (k, v) ∈ l := by
  obtain ⟨l₁, l₂, rfl, -⟩ := List.lookup_eq_some_iff.mp h
  simp

theorem calculatePortfolioValue_eq_sum (holdings prices : List (String × ℚ)) :
    calculatePortfolioValue holdings prices = (holdings.map (contrib prices)).sum := by
  unfold calculatePortfolioValue
  suffices h : ∀ (l : List (String × ℚ)) (a : ℚ),
      (l.foldl (fun acc p =>
        match prices.lookup p.1 with
        | some price => acc + p.2 * price
        | none => acc) a) = a + (l.map (contrib prices)).sum by
    simpa using h holdings 0
  intro l
  induction l with
  | nil => intro a; simp
  | cons x xs ih =>
    intro a
    rw [List.foldl_cons, List.map_cons, List.sum_cons]
    cases hx : prices.lookup x.1 with
    | none =>
      have hc : contrib prices x = 0 := by unfold contrib; rw [hx]
      simp only [hx]
      rw [ih, hc]
      ring
    | some price =>
      have hc : contrib prices x = x.2 * price := by unfold contrib; rw [hx]
      simp only [hx]
      rw [ih, hc]
      ring

theorem contrib_nonneg {prices : List (String × ℚ)}
    (hp : ∀ p ∈ prices, 0 ≤ p.2) (x : String × ℚ) (hx0 : 0 ≤ x.2) :
    0 ≤ contrib prices x := by
  unfold contrib
  cases hlk : prices.lookup x.1 with
  | none => exact le_refl 0
  | some price => exact mul_nonneg hx0 (hp (x.1, price) (lookup_mem hlk))

theorem portfolioValue_nonneg {holdings prices : List (String × ℚ)}
    (hq : ∀ p ∈ holdings, 0 ≤ p.2) (hp : ∀ p ∈ prices, 0 ≤ p.2) :
    0 ≤ calculatePortfolioValue holdings prices := by
  rw [calculatePortfolioValue_eq_sum]
  apply List.sum_nonneg
  intro x hx
  obtain ⟨p, hpmem, rfl⟩ := List.mem_map.mp hx
  exact contrib_nonneg hp p (hq p hpmem)

theorem getD_lookup_nonneg {l : List (String × ℚ)} (h : ∀ p ∈ l, 0 ≤ p.2)
    (sym : String) : 0 ≤ (l.lookup sym).getD 0 := by
  cases hlk : l.lookup sym with
  | none => simp
  | some v => simpa using h (sym, v) (lookup_mem hlk)

theorem value_le_total {holdings prices : List (String × ℚ)}
    (hq : ∀ p ∈ holdings, 0 ≤ p.2) (hp : ∀ p ∈ prices, 0 ≤ p.2) (sym : String) :
    (holdings.lookup sym).getD 0 * (prices.lookup sym).getD 0
      ≤ calculatePortfolioValue holdings prices := by
  have hnn := portfolioValue_nonneg hq hp
  cases hh : holdings.lookup sym with
  | none => simpa using hnn
  | some q =>
    cases hpr : prices.lookup sym with
    | none => simpa using hnn
    | some price =>
      simp only [Option.getD_some]
      have hc : contrib prices (sym, q) = q * price := by
        unfold contrib
        simp [hpr]
      rw [calculatePortfolioValue_eq_sum, ← hc]
      refine List.single_le_sum ?_ _ (List.mem_map.mpr ⟨(sym, q), lookup_mem hh, rfl⟩)
      intro x hx
      obtain ⟨p, hpmem, rfl⟩ := List.mem_map.mp hx
      exact contrib_nonneg hp p (hq p hpmem)

theorem currentWeightOf_bounds {holdings prices : List (String × ℚ)}
    (hq : ∀ p ∈ holdings, 0 ≤ p.2) (hp : ∀ p ∈ prices, 0 ≤ p.2) (sym : String) :
    0 ≤ currentWeightOf holdings prices (calculatePortfolioValue holdings prices) sym
    ∧ currentWeightOf holdings prices (calculatePortfolioValue holdings prices) sym ≤ 1 := by
  unfold currentWeightOf
  by_cases h0 : calculatePortfolioValue holdings prices = 0
  · rw [if_pos h0]
    norm_num
  · have hpos : 0 < calculatePortfolioValue holdings prices :=
      lt_of_le_of_ne (portfolioValue_nonneg hq hp) (Ne.symm h0)
    rw [if_neg h0]
    constructor
    · exact div_nonneg (mul_nonneg (getD_lookup_nonneg hq sym) (getD_lookup_nonneg hp sym))
        hpos.le
    · rw [div_le_one hpos]
      exact value_le_total hq hp sym

theorem mapM_ok {α β : Type} (f : α → Except String β) (g : α → β) (l : List α)
    (h : ∀ x ∈ l, f x = Except.ok (g x)) : l.mapM f = Except.ok (l.map g) := by
  induction l with
  | nil => rfl
  | cons x xs ih =>
    rw [List.mapM_cons, h x (List.mem_cons_self x xs),
      ih (fun y hy => h y (List.mem_cons_of_mem x hy))]
    rfl

theorem buildSuggestion_eq_claim (holdings prices : List (String × ℚ)) (thr : ℚ)
    (p : String × ℚ)
    (hq : ∀ x ∈ holdings, 0 ≤ x.2) (hp : ∀ x ∈ prices, 0 ≤ x.2)
    (hpt : 0 ≤ p.2 ∧ p.2 ≤ 1) :
    buildSuggestion holdings prices (calculatePortfolioValue holdings prices) thr p
      = Except.ok (claimAction holdings prices
          (calculatePortfolioValue holdings prices) thr p) := by
  obtain ⟨hc0, hc1⟩ := currentWeightOf_bounds hq hp p.1
  have hcw : (if calculatePortfolioValue holdings prices = 0 then (0:ℚ)
      else (holdings.lookup p.1).getD 0 * (prices.lookup p.1).getD 0 /
        calculatePortfolioValue holdings prices)
      = currentWeightOf holdings prices (calculatePortfolioValue holdings prices) p.1 := rfl
  unfold buildSuggestion claimAction
  rw [hcw]
  set cur := currentWeightOf holdings prices (calculatePortfolioValue holdings prices) p.1
    with hcur
  by_cases hdev : |cur - p.2| > thr
  · rw [if_pos hdev, if_pos hdev]
    by_cases hgt : cur > p.2
    · rw [if_pos hgt]
      unfold mkRebalanceAction
      rw [if_neg (not_not_intro ⟨hc0, hc1⟩), if_neg (not_not_intro hpt), if_pos hgt]
      have habs : |cur - p.2| = cur - p.2 := abs_of_pos (sub_pos.mpr hgt)
      rw [habs]
    · rw [if_neg hgt]
      unfold mkRebalanceAction
      rw [if_neg (not_not_intro ⟨hc0, hc1⟩), if_neg (not_not_intro hpt), if_neg hgt]
      have habs : |cur - p.2| = p.2 - cur := by
        rw [abs_sub_comm]
        exact abs_of_nonneg (sub_nonneg.mpr (le_of_not_lt hgt))
      rw [habs]
  · rw [if_neg hdev, if_neg hdev]
    unfold mkRebalanceAction
    rw [if_neg (not_not_intro ⟨hc0, hc1⟩), if_neg (not_not_intro hpt)]

theorem demoFrame5_validates : validatePriceData demoFrame5 = some demoSeries5 := by
  norm_num [validatePriceData, demoFrame5, demoSeries5, cleanedRows, handleMissingValues,
    ffillStep, convertRow, demoRaw, demoRow, toPriceRow, truncToInt, integrityOk,
    countInvalid, rowValid, dateLE, roundRow, roundPrec, roundHalfEven,
    List.insertionSort, List.orderedInsert]

/-! ### Claim theorems -/

/-- Claim C1: when a technical snapshot's maxDrawdown exceeds the default drawdown
threshold 0.20, `_evaluate_buy_conditions` denies the buy with confidence exactly 0 and a
single reason citing the drawdown breach, regardless of the trend condition and RSI value;
no other rule is consulted. -/
theorem buy_drawdown_gate_dominates (t : TrendCondition) (r : RSICondition) (md : ℚ) (h : md > 1/5) :
    evaluateBuyConditions defaultSignalConfig t r
      (evaluateDrawdownCondition defaultSignalConfig md)
    = (false, 0, [Reason.drawdownExceeded md (1/5)]) := by
  have hex : (evaluateDrawdownCondition defaultSignalConfig md).isExcessive = true :=
    decide_eq_true h
  unfold evaluateBuyConditions
  rw [hex]
  simp [evaluateDrawdownCondition, defaultSignalConfig]

/-- Witness for claim C1 at maxDrawdown 0.25 with a rising trend and RSI 20. -/
theorem buy_drawdown_gate_dominates_witness :
    ((1:ℚ)/4 > 1/5)
    ∧ evaluateBuyConditions defaultSignalConfig ⟨TrendStatus.rising, true, 1⟩
        ⟨20, RsiStatus.normal, false, false⟩
        (evaluateDrawdownCondition defaultSignalConfig (1/4))
      = (false, 0, [Reason.drawdownExceeded (1/4) (1/5)]) :=
  ⟨by norm_num, buy_drawdown_gate_dominates _ _ _ (by norm_num)⟩

/-- Claim C2 (failing-input evaluation): on the strictly increasing series 1..15 with the
default period 14, the trailing window has average loss exactly 0 and average gain 1, yet
`calculate_rsi` yields 100 at the last index — not the 50 the spec and the source's own
`fillna(50)` comment promise.  The `fillna` only catches the 0/0 `NaN` case; a positive
gain over a zero loss produces `rs = inf` and hence RSI 100. -/
theorem calculateRsi_avgLoss_zero_gain_pos :
    (calculateRsi [1,2,3,4,5,6,7,8,9,10,11,12,13,14,15] 14).getD 14 none = some 100 := by
  norm_num [calculateRsi, rsiPoint, rollingMean, gains, losses, List.range_succ]

/-- Counterexample to claim C3: a 10-row frame with one row whose open exceeds its high
(violation rate exactly 10%) passes validation and the violating row appears in the
returned series. -/
theorem validator_returns_violating_row :
    validatePriceData [demoRaw 0, demoRaw 1, demoRaw 2, demoRaw 3, demoRaw 4, demoRaw 5,
        demoRaw 6, demoRaw 7, demoRaw 8, demoBadRaw 9]
      = some [demoRow 0, demoRow 1, demoRow 2, demoRow 3, demoRow 4, demoRow 5,
          demoRow 6, demoRow 7, demoRow 8, demoBadRow 9]
    ∧ ¬ rowValid (demoBadRow 9) := by
  constructor
  · norm_num [validatePriceData, cleanedRows, handleMissingValues, ffillStep, convertRow,
      demoRaw, demoBadRaw, demoRow, demoBadRow, toPriceRow, truncToInt, integrityOk,
      countInvalid, rowValid, dateLE, roundRow, roundPrec, roundHalfEven,
      List.insertionSort, List.orderedInsert]
  · norm_num [rowValid, demoBadRow]

/-- Claim C3 (amended): an accepted frame's returned series is the cleaned rows sorted by
date and rounded; among those cleaned rows at most 10% violate the OHLCV integrity
invariant.  The original claim — that every returned row satisfies the invariant — fails
because `_validate_data_integrity` keeps violating rows whenever the violation rate is at
most 10%. -/
theorem validator_keeps_bounded_violations (raws : List RawRow) (out : List PriceRow)
    (hsome : validatePriceData raws = some out) :
    ∃ rows, cleanedRows (raws.map convertRow) = some rows
      ∧ out = (List.insertionSort dateLE rows).map (roundRow 2)
      ∧ 10 * countInvalid rows ≤ rows.length := by
  unfold validatePriceData at hsome
  by_cases he : raws.isEmpty
  · simp [he] at hsome
  · simp only [he, Bool.false_eq_true, if_false] at hsome
    cases hc : cleanedRows (raws.map convertRow) with
    | none => rw [hc] at hsome; simp at hsome
    | some rows =>
      rw [hc] at hsome
      dsimp only at hsome
      by_cases hint : integrityOk rows
      · rw [if_pos hint] at hsome
        refine ⟨rows, rfl, (Option.some.inj hsome).symm, ?_⟩
        rcases hint with h0 | hrate
        · simp [h0]
        · have hlen : rows.length ≠ 0 := by
            intro h
            exact cleanedRows_ne_nil hc (List.length_eq_zero.mp h)
          have hlpos : 0 < (rows.length : ℚ) := by
            have := Nat.pos_of_ne_zero hlen
            exact_mod_cast this
          rw [div_le_div_iff₀ hlpos (by norm_num)] at hrate
          have : (10 * countInvalid rows : ℚ) ≤ (rows.length : ℚ) := by linarith
          exact_mod_cast this
      · rw [if_neg hint] at hsome; cases hsome

/-- Witness for the amended claim C3 on a concrete accepted 5-row frame. -/
theorem validator_keeps_bounded_violations_witness :
    ∃ rows, cleanedRows ([demoRaw 0, demoRaw 1, demoRaw 2, demoRaw 3, demoRaw 4].map
        convertRow) = some rows
      ∧ [demoRow 0, demoRow 1, demoRow 2, demoRow 3, demoRow 4]
          = (List.insertionSort dateLE rows).map (roundRow 2)
      ∧ 10 * countInvalid rows ≤ rows.length :=
  validator_keeps_bounded_violations [demoRaw 0, demoRaw 1, demoRaw 2, demoRaw 3, demoRaw 4]
    [demoRow 0, demoRow 1, demoRow 2, demoRow 3, demoRow 4]
    (by norm_num [validatePriceData, cleanedRows, handleMissingValues, ffillStep,
      convertRow, demoRaw, demoRow, toPriceRow, truncToInt, integrityOk, countInvalid,
      rowValid, dateLE, roundRow, roundPrec, roundHalfEven, List.insertionSort,
      List.orderedInsert])

/-- Counterexample to claim C4: a first adapter that fails all three attempts by
returning `None` (no exception, `last_error` never set) is NOT marked unavailable, although
the call still returns the second adapter's validated output. -/
theorem failover_silent_failure_stays_available :
    getEtfData 3 none false
        [⟨"yahoo_finance", true, none,
            [FetchOutcome.raw none, FetchOutcome.raw none, FetchOutcome.raw none]⟩,
         ⟨"alpha_vantage", true, none, [FetchOutcome.raw (some demoFrame5)]⟩]
      = ([⟨"yahoo_finance", true, none,
            [FetchOutcome.raw none, FetchOutcome.raw none, FetchOutcome.raw none]⟩,
          ⟨"alpha_vantage", true, none, [FetchOutcome.raw (some demoFrame5)]⟩],
         some demoSeries5) := by
  have hne : demoFrame5.isEmpty = false := by norm_num [demoFrame5]
  simp [getEtfData, getEtfDataLoop, runSource, attemptLoop, lastErrorTruthy,
    demoFrame5_validates, hne]

/-- Claim C4 (amended): when the first adapter's three attempts all raise (recording an
error message) and a later adapter returns a frame that passes validation, `get_etf_data`
returns the later adapter's validated output and the failed adapter is marked unavailable
with its last error recorded.  The original claim fails when the adapter fails without
recording an error (returns `None`/empty/invalid data): `is_available` then stays true. -/
theorem failover_marks_erroring_source_unavailable (nameA : String) (m1 m2 m3 : String) (hm3 : m3 ≠ "")
    (nameB : String) (leB : Option String) (restAtt : List FetchOutcome)
    (f : List RawRow) (v : List PriceRow) (hfne : f.isEmpty = false)
    (hval : validatePriceData f = some v) (rest : List DataSource) :
    getEtfData 3 none false
        (⟨nameA, true, none, [FetchOutcome.exc m1, FetchOutcome.exc m2, FetchOutcome.exc m3]⟩
          :: ⟨nameB, true, leB, FetchOutcome.raw (some f) :: restAtt⟩ :: rest)
      = (⟨nameA, false, some m3, [FetchOutcome.exc m1, FetchOutcome.exc m2, FetchOutcome.exc m3]⟩
          :: ⟨nameB, true, leB, FetchOutcome.raw (some f) :: restAtt⟩ :: rest, some v) := by
  have hbeq : (m3 == "") = false := by
    simpa using hm3
  simp [getEtfData, getEtfDataLoop, runSource, attemptLoop, lastErrorTruthy,
    hfne, hval, hbeq]

/-- Witness for the amended claim C4 with three recorded errors and a succeeding second
adapter. -/
theorem failover_marks_erroring_source_unavailable_witness :
    getEtfData 3 none false
        [⟨"yahoo_finance", true, none,
            [FetchOutcome.exc "超时1", FetchOutcome.exc "超时2", FetchOutcome.exc "超时3"]⟩,
         ⟨"alpha_vantage", true, none, [FetchOutcome.raw (some demoFrame5)]⟩]
      = ([⟨"yahoo_finance", false, some "超时3",
            [FetchOutcome.exc "超时1", FetchOutcome.exc "超时2", FetchOutcome.exc "超时3"]⟩,
          ⟨"alpha_vantage", true, none, [FetchOutcome.raw (some demoFrame5)]⟩],
         some demoSeries5) :=
  failover_marks_erroring_source_unavailable "yahoo_finance" "超时1" "超时2" "超时3" (by decide)
    "alpha_vantage" none [] demoFrame5 demoSeries5 (by norm_num [demoFrame5, demoRaw])
    demoFrame5_validates []

/-- Claim C5: `update_target_weights` rejects any weight map whose values sum outside
[0.999, 1.001], and the rejection is atomic — the returned state (in-memory config,
holdings and persisted file) is exactly the state before the call, with no silent
renormalization. -/
theorem updateTargetWeights_rejects_bad_sum (st : PMState) (w : List (String × ℚ))
    (h : (w.map Prod.snd).sum < 999/1000 ∨ 1001/1000 < (w.map Prod.snd).sum) :
    updateTargetWeights st w = (st, Except.error "权重总和必须为1.0") := by
  have habs : |(w.map Prod.snd).sum - 1| > 1/1000 := by
    rw [gt_iff_lt, lt_abs]
    rcases h with h | h
    · right; linarith
    · left; linarith
  unfold updateTargetWeights
  rw [if_pos habs]

/-- Witness for claim C5 with a single weight summing to 0.5. -/
theorem updateTargetWeights_rejects_bad_sum_witness :
    (([("510300", (1:ℚ)/2)].map Prod.snd).sum < 999/1000
      ∨ 1001/1000 < ([("510300", (1:ℚ)/2)].map Prod.snd).sum)
    ∧ updateTargetWeights ⟨none, [], none⟩ [("510300", (1:ℚ)/2)]
        = (⟨none, [], none⟩, Except.error "权重总和必须为1.0") :=
  ⟨Or.inl (by norm_num),
   updateTargetWeights_rejects_bad_sum ⟨none, [], none⟩ [("510300", (1:ℚ)/2)] (Or.inl (by norm_num))⟩

/-- Counterexample to claim C6: the empty series raises `ValueError` (价格序列不能为空)
rather than returning 0. -/
theorem calculateMaxDrawdown_empty_raises : calculateMaxDrawdown ([] : List ℚ) = Except.error "价格序列不能为空" := rfl

/-- Claim C6 (amended): on a nonempty series of positive prices `calculate_max_drawdown`
returns a value in [0, 1], and 0 on a monotonically non-decreasing series.  The original
claim fails for the empty series, which raises `ValueError` instead of returning 0. -/
theorem calculateMaxDrawdown_bounds (prices : List ℚ) (hne : prices ≠ []) (hpos : ∀ p ∈ prices, 0 < p) :
    ∃ q, calculateMaxDrawdown prices = Except.ok q ∧ 0 ≤ q ∧ q ≤ 1
      ∧ (prices.Sorted (· ≤ ·) → q = 0) := by
  obtain ⟨p, rest, rfl⟩ := List.exists_cons_of_ne_nil hne
  set l := p :: rest with hl
  have hnil : l.isEmpty = false := by simp [hl]
  refine ⟨(drawdowns l).foldl max ((drawdowns l).headD 0), ?_, ?_, ?_, ?_⟩
  · simp [calculateMaxDrawdown, hnil]
  · rw [drawdowns_headD]
    exact le_foldl_max _ _
  · rw [drawdowns_headD]
    refine foldl_max_le (by norm_num) ?_
    intro x hx
    simp only [drawdowns, List.mem_map, List.mem_range] at hx
    obtain ⟨i, hi, rfl⟩ := hx
    have hP : 0 < prefixMax l i := prefixMax_pos hpos hne i
    rw [div_le_one hP]
    have hv : 0 < l.getD i 0 := by
      rw [List.getD_eq_getElem l 0 hi]
      exact hpos _ (l.getElem_mem hi)
    linarith
  · intro hs
    rw [drawdowns_headD]
    refine le_antisymm ?_ (le_foldl_max _ _)
    refine foldl_max_le le_rfl ?_
    intro x hx
    simp only [drawdowns, List.mem_map, List.mem_range] at hx
    obtain ⟨i, hi, rfl⟩ := hx
    rw [prefixMax_eq_of_sorted hs hi]
    simp

/-- Witness for the amended claim C6 on the series [2, 3]. -/
theorem calculateMaxDrawdown_bounds_witness :
    (([(2:ℚ), 3] : List ℚ) ≠ [] ∧ ∀ p ∈ [(2:ℚ), 3], 0 < p)
    ∧ ∃ q, calculateMaxDrawdown [(2:ℚ), 3] = Except.ok q ∧ 0 ≤ q ∧ q ≤ 1
      ∧ (([(2:ℚ), 3]).Sorted (· ≤ ·) → q = 0) := by
  constructor
  · constructor
    · simp
    · intro p hp
      fin_cases hp <;> norm_num
  · exact calculateMaxDrawdown_bounds [(2:ℚ), 3] (by simp) (by intro p hp; fin_cases hp <;> norm_num)

/-- Claim C7: for a configured portfolio (weights in [0,1], nonnegative holdings and
prices), `get_rebalance_suggestions` returns exactly one action per configured symbol,
each equal to the claim-side action (Sell/Buy when the deviation exceeds the threshold
with amount |Δweight| × portfolioValue, Hold with amount 0 otherwise, current weight
symbolValue/portfolioValue or 0 when the portfolio value is 0), and the list is sorted by
deviation in descending order. -/
theorem getRebalanceSuggestions_spec (st : PMState) (prices : List (String × ℚ)) (cfg : PortfolioConfigM) (thr : ℚ)
    (hcfg : st.portfolioConfig = some cfg)
    (hq : ∀ p ∈ st.currentHoldings, 0 ≤ p.2)
    (hp : ∀ p ∈ prices, 0 ≤ p.2)
    (hw : ∀ p ∈ cfg.etfWeights, 0 ≤ p.2 ∧ p.2 ≤ 1) :
    (getRebalanceSuggestions st prices (some thr)).Perm
        (cfg.etfWeights.map (claimAction st.currentHoldings prices
          (calculatePortfolioValue st.currentHoldings prices) thr))
    ∧ List.Sorted devGE (getRebalanceSuggestions st prices (some thr)) := by
  have hbuild : cfg.etfWeights.mapM (buildSuggestion st.currentHoldings prices
        (calculatePortfolioValue st.currentHoldings prices) ((some thr).getD
          cfg.rebalanceThreshold))
      = Except.ok (cfg.etfWeights.map (claimAction st.currentHoldings prices
          (calculatePortfolioValue st.currentHoldings prices) thr)) := by
    apply mapM_ok
    intro p hpmem
    exact buildSuggestion_eq_claim st.currentHoldings prices thr p hq hp (hw p hpmem)
  have hout : getRebalanceSuggestions st prices (some thr)
      = List.insertionSort devGE (cfg.etfWeights.map (claimAction st.currentHoldings
          prices (calculatePortfolioValue st.currentHoldings prices) thr)) := by
    unfold getRebalanceSuggestions
    rw [hcfg]
    dsimp only
    rw [hbuild]
  rw [hout]
  exact ⟨List.perm_insertionSort devGE _, List.sorted_insertionSort devGE _⟩

/-- Witness for claim C7 on the spec's example scenario: weights {A: 0.6, B: 0.4},
prices {A: 10, B: 20}, holdings {A: 3, B: 1}. -/
theorem getRebalanceSuggestions_spec_witness :
    (getRebalanceSuggestions
        ⟨some ⟨[("159919", (3:ℚ)/5), ("510500", (2:ℚ)/5)], 1/20⟩,
          [("159919", (3:ℚ)), ("510500", (1:ℚ))], none⟩
        [("159919", (10:ℚ)), ("510500", (20:ℚ))] (some (1/20))).Perm
      ([("159919", (3:ℚ)/5), ("510500", (2:ℚ)/5)].map
        (claimAction [("159919", (3:ℚ)), ("510500", (1:ℚ))]
          [("159919", (10:ℚ)), ("510500", (20:ℚ))]
          (calculatePortfolioValue [("159919", (3:ℚ)), ("510500", (1:ℚ))]
            [("159919", (10:ℚ)), ("510500", (20:ℚ))]) (1/20)))
    ∧ List.Sorted devGE (getRebalanceSuggestions
        ⟨some ⟨[("159919", (3:ℚ)/5), ("510500", (2:ℚ)/5)], 1/20⟩,
          [("159919", (3:ℚ)), ("510500", (1:ℚ))], none⟩
        [("159919", (10:ℚ)), ("510500", (20:ℚ))] (some (1/20))) :=
  getRebalanceSuggestions_spec ⟨some ⟨[("159919", (3:ℚ)/5), ("510500", (2:ℚ)/5)], 1/20⟩,
      [("159919", (3:ℚ)), ("510500", (1:ℚ))], none⟩
    [("159919", (10:ℚ)), ("510500", (20:ℚ))]
    ⟨[("159919", (3:ℚ)/5), ("510500", (2:ℚ)/5)], 1/20⟩ (1/20) rfl
    (by intro p hp; fin_cases hp <;> norm_num)
    (by intro p hp; fin_cases hp <;> norm_num)
    (by intro p hp; fin_cases hp <;> constructor <;> norm_num)

/-- Counterexample to claim C8: a 5-row frame (fewer than the 30-row minimum) is
returned as a series even though the completeness check fails. -/
theorem validator_returns_short_series :
    validatePriceData [demoRaw 0, demoRaw 1, demoRaw 2, demoRaw 3, demoRaw 4]
      = some [demoRow 0, demoRow 1, demoRow 2, demoRow 3, demoRow 4]
    ∧ validateDataCompleteness [demoRow 0, demoRow 1, demoRow 2, demoRow 3, demoRow 4]
      = false := by
  constructor
  · norm_num [validatePriceData, cleanedRows, handleMissingValues, ffillStep, convertRow,
      demoRaw, demoRow, toPriceRow, truncToInt, integrityOk, countInvalid, rowValid, dateLE,
      roundRow, roundPrec, roundHalfEven, List.insertionSort, List.orderedInsert]
  · norm_num [validateDataCompleteness, demoRow]

/-- Claim C8 (amended): a cleaned result with fewer than 30 rows makes
`validate_data_completeness` return false, but `validate_price_data` still returns the
series — the completeness check only logs a warning.  The original claim, that validation
fails outright, does not hold. -/
theorem completeness_failure_still_returns_data (raws : List RawRow) (rows : List PriceRow)
    (hne : raws.isEmpty = false)
    (hclean : cleanedRows (raws.map convertRow) = some rows)
    (hint : integrityOk rows) :
    validatePriceData raws = some ((List.insertionSort dateLE rows).map (roundRow 2))
    ∧ ∀ out : List PriceRow, out.length < 30 → validateDataCompleteness out = false := by
  constructor
  · unfold validatePriceData
    rw [hne]
    simp only [Bool.false_eq_true, if_false]
    rw [hclean]
    dsimp only
    rw [if_pos hint]
  · intro out hlen
    simp [validateDataCompleteness, hlen]

/-- Witness for the amended claim C8 on a concrete 5-row frame. -/
theorem completeness_failure_still_returns_data_witness :
    validatePriceData [demoRaw 0, demoRaw 1, demoRaw 2, demoRaw 3, demoRaw 4]
      = some ((List.insertionSort dateLE
          [demoRow 0, demoRow 1, demoRow 2, demoRow 3, demoRow 4]).map (roundRow 2))
    ∧ ∀ out : List PriceRow, out.length < 30 → validateDataCompleteness out = false :=
  completeness_failure_still_returns_data [demoRaw 0, demoRaw 1, demoRaw 2, demoRaw 3, demoRaw 4]
    [demoRow 0, demoRow 1, demoRow 2, demoRow 3, demoRow 4]
    (by norm_num)
    (by norm_num [cleanedRows, handleMissingValues, ffillStep, convertRow, demoRaw,
      demoRow, toPriceRow, truncToInt])
    (by norm_num [integrityOk, countInvalid, rowValid, demoRow])

/-- Claim C9: a cache load strictly after `timestamp + ttl` is a miss and removes the
stale entry; a load at or before `timestamp + ttl` returns the stored payload with the
store untouched. -/
theorem cacheLoad_ttl {α : Type} (st : CacheState α) (symbol : String) (e : CacheEntry α) (now : ℚ)
    (hfound : st.entries.lookup symbol = some e) :
    (now > e.timestamp + st.cacheExpiryHours →
       cacheLoad st symbol now = (none, removeCacheFile st symbol))
    ∧ (now ≤ e.timestamp + st.cacheExpiryHours →
       cacheLoad st symbol now = (some e.data, st)) := by
  unfold cacheLoad
  rw [hfound]
  constructor
  · intro h
    simp [isCacheExpired, h]
  · intro h
    simp [isCacheExpired, not_lt.mpr h]

/-- Witness for claim C9: an entry created at time 0 with a 24-hour TTL misses at time
25 and hits at time 24. -/
theorem cacheLoad_ttl_witness :
    cacheLoad (⟨[("510300", ⟨(7:ℕ), 0⟩)], 24⟩ : CacheState ℕ) "510300" 25
        = (none, removeCacheFile (⟨[("510300", ⟨(7:ℕ), 0⟩)], 24⟩ : CacheState ℕ) "510300")
    ∧ cacheLoad (⟨[("510300", ⟨(7:ℕ), 0⟩)], 24⟩ : CacheState ℕ) "510300" 24
        = (some 7, (⟨[("510300", ⟨(7:ℕ), 0⟩)], 24⟩ : CacheState ℕ)) :=
  ⟨(cacheLoad_ttl _ "510300" ⟨7, 0⟩ 25 (by rfl)).1 (by norm_num),
   (cacheLoad_ttl _ "510300" ⟨7, 0⟩ 24 (by rfl)).2 (by norm_num)⟩

/-- Claim C10: `update_current_holdings` raises on any negative quantity with the stored
holdings unchanged (all entries are validated before assignment), and fully replaces the
stored holdings by a copy of the map when all quantities are nonnegative. -/
theorem updateCurrentHoldings_validates_first (st : PMState) (h : List (String × ℚ)) :
    ((∃ p ∈ h, p.2 < 0) →
       updateCurrentHoldings st h = (st, Except.error "持仓数量不能为负数"))
    ∧ ((∀ p ∈ h, 0 ≤ p.2) →
       updateCurrentHoldings st h = ({ st with currentHoldings := h }, Except.ok ())) := by
  constructor
  · rintro ⟨p, hp, hneg⟩
    have hany : h.any (fun p => decide (p.2 < 0)) = true :=
      List.any_eq_true.mpr ⟨p, hp, decide_eq_true hneg⟩
    unfold updateCurrentHoldings
    simp [hany]
  · intro hall
    have hany : h.any (fun p => decide (p.2 < 0)) = false := by
      rw [List.any_eq_false]
      intro p hp
      simpa using not_lt.mpr (hall p hp)
    unfold updateCurrentHoldings
    simp [hany]

/-- Witness for claim C10 with a negative and a nonnegative single-entry holdings map. -/
theorem updateCurrentHoldings_validates_first_witness :
    updateCurrentHoldings ⟨none, [], none⟩ [("510300", (-1:ℚ))]
        = (⟨none, [], none⟩, Except.error "持仓数量不能为负数")
    ∧ updateCurrentHoldings ⟨none, [], none⟩ [("510300", (2:ℚ))]
        = (⟨none, [("510300", (2:ℚ))], none⟩, Except.ok ()) :=
  ⟨(updateCurrentHoldings_validates_first _ _).1 ⟨("510300", -1), by simp, by norm_num⟩,
   (updateCurrentHoldings_validates_first _ _).2 (by intro p hp; fin_cases hp; norm_num)⟩

end EtfDashboard
